import Mathlib

/-!
Shallow embedding of the crython library (single module `crython.py`, CPython 2.7
semantics) together with theorems checking its natural-language specification.

The embedding models:
  * Python `int(str)` parsing (`pyIntL`),
  * the string splitting used by `CronField.__contains__`
    (`str.split` on a comma and `re.split` on the dash-or-slash class),
  * the English-phrase substitution `CronField.sub_english_phrases`
    (the `PHRASES_REGEX` alternation order is the CPython 2.7 dict iteration
    order of `PHRASES`, which is deterministic for the default build; the
    order is recorded concretely in `PHRASES_ORDER`),
  * `CronField.__init__` / `__contains__` / `__str__`,
  * `CronExpression.__contains__`,
  * the `CronTab` scheduler thread (`stop` and the `run` loop) as an explicit
    state machine.

Machine integers are modelled as `Int` (Python ints are unbounded; Python's
`%` on a positive modulus agrees with `Int.emod`).  Code that can raise an
exception is modelled with `Option` (`none` = raises).
-/

namespace Crython

/-- ASCII decimal digit test, `'0' <= c <= '9'`. -/
def isPyDigit (c : Char) : Bool := '0' ≤ c && c ≤ '9'

/-- Whitespace as stripped by Python's `int(str)` conversion. -/
def isSpaceChar (c : Char) : Bool :=
  c == ' ' || c == '\t' || c == '\n' || c == '\r' || c == '\x0b' || c == '\x0c'

/-- Value of a most-significant-first digit string. -/
def digitsVal (l : List Char) : Nat := l.foldl (fun a c => 10 * a + (c.toNat - 48)) 0

/-- Strip leading and trailing whitespace, as Python `int(str)` does. -/
def pyTrim (l : List Char) : List Char :=
  ((l.dropWhile isSpaceChar).reverse.dropWhile isSpaceChar).reverse

/-- Python 2 `int(s)`: optional whitespace, optional sign, base-10 digits.
    `none` models `ValueError`. -/
def pyIntL (l : List Char) : Option Int :=
  match pyTrim l with
  | [] => none
  | c :: rest =>
    let sd : Int × List Char :=
      if c = '+' then (1, rest)
      else if c = '-' then (-1, rest)
      else (1, c :: rest)
    if sd.2 ≠ [] ∧ sd.2.all isPyDigit then some (sd.1 * (digitsVal sd.2 : Int)) else none

/-- Split a character list at every character satisfying `p`, keeping empty
    pieces, as Python `str.split(sep)` and `re.split` over a character class
    do.  Never returns `[]`. -/
def splitChars (p : Char → Bool) : List Char → List (List Char)
  | [] => [[]]
  | c :: cs =>
    if p c then [] :: splitChars p cs
    else
      match splitChars p cs with
      | [] => [[c]]
      | h :: t => (c :: h) :: t

/-- Model of `value.split(',')` from `CronField.__contains__`. -/
def splitComma (l : List Char) : List (List Char) := splitChars (fun c => c == ',') l

/-- Model of `re.split` on the dash-or-slash character class, from
    `CronField.__contains__`. -/
def splitDS (l : List Char) : List (List Char) :=
  splitChars (fun c => c == '-' || c == '/') l

/-- Alternation order of `PHRASES_REGEX` with the replacement integer of each
    phrase.  `PHRASES` is a CPython 2.7 dict whose keys are the lower-cased
    English day names, day abbreviations, month names and month abbreviations;
    the regex is the `|`-join of `PHRASES.keys()` in dict iteration order,
    `lstrip`-ped of the leading `|` contributed by the empty-string key (the
    empty key hashes to slot 0 and iterates first, so exactly that one empty
    alternative is removed).  The iteration order below was computed by
    replaying CPython 2.7's 64-bit string hash and dict insertion/resize
    algorithm on the insertion sequence the module performs. -/
def PHRASES_ORDER : List (String × Nat) :=
  [("sep", 9), ("september", 9), ("december", 12), ("tuesday", 1),
   ("november", 11), ("saturday", 5), ("sat", 5), ("feb", 2), ("aug", 8),
   ("wed", 2), ("sun", 6), ("fri", 4), ("thursday", 3), ("jan", 1),
   ("apr", 4), ("sunday", 6), ("oct", 10), ("mar", 3), ("march", 3),
   ("august", 8), ("monday", 0), ("may", 5), ("jun", 6), ("friday", 4),
   ("june", 6), ("jul", 7), ("mon", 0), ("july", 7), ("tue", 1),
   ("february", 2), ("october", 10), ("nov", 11), ("january", 1),
   ("thu", 3), ("wednesday", 2), ("april", 4), ("dec", 12)]

/-- Does the lower-cased input start with the (lower-case) key?  Models a
    case-insensitive literal regex alternative matching at one position. -/
def matchKey : List Char → List Char → Bool
  | [], _ => true
  | _ :: _, [] => false
  | k :: ks, c :: cs => k == c.toLower && matchKey ks cs

/-- First phrase of `PHRASES_ORDER` matching at this position (regex
    alternation tries alternatives left to right), with its key length. -/
def findPhrase (l : List Char) : Option (Nat × Nat) :=
  (PHRASES_ORDER.find? (fun kv => matchKey kv.1.data l)).map
    (fun kv => (kv.2, kv.1.length))

/-- Scanner for `PHRASES_REGEX.sub(_repl, value)`: at each position, replace
    the first (in alternation order) phrase matching there by its decimal
    integer representation and resume after it, otherwise copy one character.
    `fuel` bounds the recursion; every phrase is nonempty so `fuel = length`
    suffices. -/
def subAux : Nat → List Char → List Char
  | 0, l => l
  | _ + 1, [] => []
  | fuel + 1, c :: cs =>
    match findPhrase (c :: cs) with
    | some (v, klen) => (toString v).data ++ subAux fuel ((c :: cs).drop klen)
    | none => c :: subAux fuel cs

/-- Model of `CronField.sub_english_phrases`. -/
def subEnglishPhrases (s : String) : String :=
  String.mk (subAux s.data.length s.data)

/-- The class constant `CronField.SPECIALS` (a Python set; modelled as the
    list of its members — only membership is ever used, except that the
    validation error message joins the offending members). -/
def SPECIALS : List Char := ['*', '/', '%', ',', '-', 'L', 'W', '#', '?']

/-- The dynamic type of `CronField.value`: a Python `int`/`long`, a
    `basestring`, or another iterable (the module uses `range`/`set`-like
    iterables of integers). -/
inductive FieldValue
  | exact (n : Int)
  | pattern (s : String)
  | iter (xs : List Int)
deriving DecidableEq

/-- The two `ValueError`s `CronField.__init__` can raise, with the data
    interpolated into their messages. -/
inductive InitError
  | valueOutOfBounds (lo hi : Int)
  | invalidSpecialChars (cs : List Char)
deriving DecidableEq

/-- A constructed `CronField`: `self.value`, `self.min`, `self.max`,
    `self.specials`. -/
structure CronField where
  value : FieldValue
  min : Int
  max : Int
  specials : List Char
deriving DecidableEq

/-- Model of `CronField.__init__(value, min, max, specials)`.  An `Int` value
    must be within bounds; a string value gets English phrases substituted and
    is then scanned for special characters outside `specials`; any other
    iterable is sorted (Python `sorted`, i.e. the ascending stable sort). -/
def CronField.init (value : FieldValue) (mn mx : Int) (specials : List Char) :
    Except InitError CronField :=
  match value with
  | .exact n =>
    if mn ≤ n ∧ n ≤ mx then .ok ⟨value, mn, mx, specials⟩
    else .error (.valueOutOfBounds mn mx)
  | .pattern s =>
    let s' := subEnglishPhrases s
    let invalid := SPECIALS.filter (fun c => decide (c ∉ specials ∧ c ∈ s'.data))
    if invalid ≠ [] then .error (.invalidSpecialChars invalid)
    else .ok ⟨.pattern s', mn, mx, specials⟩
  | .iter xs => .ok ⟨.iter (List.insertionSort (· ≤ ·) xs), mn, mx, specials⟩

/-- Field constructor `sec` from the module (second, 0-59). -/
def sec (v : FieldValue) : Except InitError CronField :=
  CronField.init v 0 59 ['*', '/', ',', '-']

/-- Field constructor `min` from the module (minute, 0-59). -/
def min (v : FieldValue) : Except InitError CronField :=
  CronField.init v 0 59 ['*', '/', ',', '-']

/-- Field constructor `hr` from the module (hour, 0-23). -/
def hr (v : FieldValue) : Except InitError CronField :=
  CronField.init v 0 23 ['*', '/', ',', '-']

/-- Field constructor `dom` from the module (day of month, 1-31). -/
def dom (v : FieldValue) : Except InitError CronField :=
  CronField.init v 1 31 ['*', '/', ',', '-', '?', 'L', 'W']

/-- Field constructor `mon` from the module (month, 1-12). -/
def mon (v : FieldValue) : Except InitError CronField :=
  CronField.init v 1 12 ['*', '/', ',', '-']

/-- Field constructor `dow` from the module (day of week, 0-6). -/
def dow (v : FieldValue) : Except InitError CronField :=
  CronField.init v 0 6 ['*', '/', '-', '?', 'L', '#']

/-- Field constructor `yr` from the module (year, 1970-2099). -/
def yr (v : FieldValue) : Except InitError CronField :=
  CronField.init v 1970 2099 ['*', '/', ',', '-']

/-- The guard `not step or (item + start) % step == 0` from
    `CronField.__contains__`: `step` is `None` when the clause has no third
    part, and Python's `not 0` is also truthy, so a zero step skips the
    modulus test (which would otherwise raise `ZeroDivisionError`).  For a
    positive modulus Python's floor `%` agrees with `Int.emod`. -/
def stepCond (item start : Int) : Option Int → Bool
  | none => true
  | some st => decide (st = 0) || decide ((item + start) % st = 0)

/-- The comma-clause loop of `CronField.__contains__` for a string value.
    `result` is the accumulator `result` of the source; each clause is split
    on dash/slash.  A bare `*` clause returns the bounds check for the whole
    call immediately (a `return`, not `|=`).  `none` models an uncaught
    `ValueError` from `int()` on a non-numeric part. -/
def clausesEval (fmin fmax item : Int) : List (List Char) → Bool → Option Bool
  | [], result => some result
  | cl :: rest, result =>
    match splitDS cl with
    | [] => none
    | [single] =>
      if single = ['*'] then some (decide (fmin ≤ item ∧ item ≤ fmax))
      else
        match pyIntL single with
        | none => none
        | some n => clausesEval fmin fmax item rest (result || decide (n = item))
    | p0 :: p1 :: ps =>
      if p0 = ['*'] then
        match pyIntL p1 with
        | none => none
        | some st =>
          let start := Min.min fmin fmax
          let stop := Max.max fmin fmax
          clausesEval fmin fmax item rest
            (result || (decide (start ≤ item ∧ item ≤ stop) && stepCond item start (some st)))
      else
        match pyIntL p0, pyIntL p1 with
        | some a, some b =>
          let start := Min.min a b
          let stop := Max.max a b
          match ps with
          | [] =>
            clausesEval fmin fmax item rest
              (result || decide (start ≤ item ∧ item ≤ stop))
          | p2 :: _ =>
            match pyIntL p2 with
            | none => none
            | some st =>
              clausesEval fmin fmax item rest
                (result || (decide (start ≤ item ∧ item ≤ stop) && stepCond item start (some st)))
        | _, _ => none

/-- `CronField.__contains__` on a string value. -/
def patternContainsL (fmin fmax item : Int) (l : List Char) : Option Bool :=
  clausesEval fmin fmax item (splitComma l) false

/-- Model of `CronField.__contains__` (`item in field`).  `none` models an
    uncaught exception escaping the membership test. -/
def CronField.contains (f : CronField) (item : Int) : Option Bool :=
  match f.value with
  | .exact n => some (decide (n = item))
  | .pattern s => patternContainsL f.min f.max item s.data
  | .iter xs => some (decide (item ∈ xs))

/-- Model of `CronField.__str__`.  In Python 2 `str` is a registered
    `collections.Sequence`, hence an (indirect) virtual instance of
    `collections.Iterable`, so a string value of length at least 5 also takes
    the abbreviated first-dots-last rendering. -/
def CronField.str (f : CronField) : String :=
  match f.value with
  | .exact n => toString n
  | .pattern s =>
    if 5 ≤ s.length then
      "[" ++ String.singleton (s.data.headD ' ') ++ "..."
        ++ String.singleton (s.data.getLastD ' ') ++ "]"
    else s
  | .iter xs =>
    if 5 ≤ xs.length then
      "[" ++ toString (xs.headD 0) ++ "..." ++ toString (xs.getLastD 0) ++ "]"
    else "[" ++ String.intercalate ", " (xs.map toString) ++ "]"

/-- The first seven entries of `datetime.timetuple()`: year, month, day of
    month, hour, minute, second, weekday (Monday = 0). -/
structure DateTime where
  year : Int
  month : Int
  day : Int
  hour : Int
  minute : Int
  second : Int
  weekday : Int
deriving DecidableEq

/-- An argument passed to `CronExpression.__contains__`: either a
    `datetime.datetime` or any other Python object (the `Nat` tag stands for
    the identity of the non-datetime object, which the code never inspects). -/
inductive PyArg
  | dt (t : DateTime)
  | nonDatetime (tag : Nat)

/-- Python's `all` over a lazily generated list of checks, each of which may
    raise (`none`): it short-circuits on the first `False`, so a later raise
    is not reached. -/
def pyAll : List (Option Bool) → Option Bool
  | [] => some true
  | none :: _ => none
  | some false :: _ => some false
  | some true :: rest => pyAll rest

/-- A constructed `CronExpression`: its seven `CronField` attributes. -/
structure CronExpression where
  second : CronField
  minute : CronField
  hour : CronField
  day : CronField
  month : CronField
  weekday : CronField
  year : CronField

/-- Model of `CronExpression.__contains__`: a non-datetime is rejected with
    `False`; a datetime is decomposed into its seven components, each checked
    against the attribute of the same name.  The checks run in the CPython
    2.7 iteration order of the instance `__dict__` (hour, month, second,
    weekday, year, day, minute), computed by replaying the string-keyed dict
    algorithm; the conjunction is order-independent but the position of a
    short-circuiting `False` relative to a raising field is not. -/
def CronExpression.containsArg (e : CronExpression) (a : PyArg) : Option Bool :=
  match a with
  | .nonDatetime _ => some false
  | .dt t =>
    pyAll [e.hour.contains t.hour, e.month.contains t.month,
           e.second.contains t.second, e.weekday.contains t.weekday,
           e.year.contains t.year, e.day.contains t.day,
           e.minute.contains t.minute]

/-- The mutable state of a `CronTab`: the job registry (only names matter
    here) and the two `threading.Event` flags. -/
structure CronTab where
  jobs : List String
  procEvent : Bool
  stopEvent : Bool
deriving DecidableEq

/-- `CronTab.register`: store the job and set the has-jobs event. -/
def CronTab.register (t : CronTab) (name : String) : CronTab :=
  { t with jobs := name :: t.jobs.filter (· ≠ name), procEvent := true }

/-- `CronTab.deregister`: drop the job; clear the has-jobs event when the
    registry becomes empty. -/
def CronTab.deregister (t : CronTab) (name : String) : CronTab :=
  if name ∈ t.jobs then
    let jobs' := t.jobs.filter (· ≠ name)
    { t with jobs := jobs', procEvent := if jobs'.isEmpty then false else t.procEvent }
  else t

/-- `CronTab.stop`: `self.stop_event.set(); self.proc_event.clear()`. -/
def CronTab.stop (t : CronTab) : CronTab :=
  { t with stopEvent := true, procEvent := false }

/-- Position of the `CronTab.run` loop thread between its observable
    actions. -/
inductive LoopPhase
  | waiting
  | checkingStop
  | sweeping
  | terminated
deriving DecidableEq

/-- A configuration of the scheduler: shared `CronTab` state plus the loop
    thread's position. -/
structure SchedulerState where
  tab : CronTab
  phase : LoopPhase
deriving DecidableEq

/-- One step of the `CronTab.run` loop thread.  `proc_event.wait()` only
    proceeds when the event flag is set (a cleared event leaves the thread
    blocked, i.e. the configuration is unchanged); after waking, the loop
    returns if `stop_event` is set, otherwise sweeps the jobs, sleeps and
    parks again. -/
def schedulerStep (s : SchedulerState) : SchedulerState :=
  match s.phase with
  | .waiting => if s.tab.procEvent then { s with phase := .checkingStop } else s
  | .checkingStop =>
    if s.tab.stopEvent then { s with phase := .terminated }
    else { s with phase := .sweeping }
  | .sweeping => { s with phase := .waiting }
  | .terminated => s

end Crython

namespace Crython

lemma splitChars_of_no_sep (p : Char → Bool) (l : List Char)
    (h : ∀ c ∈ l, p c = false) : splitChars p l = [l] := by
  induction l with
  | nil => rfl
  | cons c cs ih =>
    have hc : p c = false := h c (List.mem_cons_self c cs)
    have hcs : ∀ c ∈ cs, p c = false := fun x hx => h x (List.mem_cons_of_mem c hx)
    simp [splitChars, hc, ih hcs]

lemma splitChars_append_sep (p : Char → Bool) (l₁ l₂ : List Char) (sep : Char)
    (hsep : p sep = true) (h : ∀ c ∈ l₁, p c = false) :
    splitChars p (l₁ ++ sep :: l₂) = l₁ :: splitChars p l₂ := by
  induction l₁ with
  | nil => simp [splitChars, hsep]
  | cons c cs ih =>
    have hc : p c = false := h c (List.mem_cons_self c cs)
    have hcs : ∀ x ∈ cs, p x = false := fun x hx => h x (List.mem_cons_of_mem c hx)
    have h2 := ih hcs
    simp only [List.cons_append, splitChars, hc, Bool.false_eq_true, if_false]
    rw [show cs.append (sep :: l₂) = cs ++ sep :: l₂ from rfl, h2]

lemma digit_ne (c x : Char) (h : isPyDigit c = true) (hx : isPyDigit x = false) :
    c ≠ x := by
  intro he
  rw [he, hx] at h
  cases h

lemma digit_not_space (c : Char) (h : isPyDigit c = true) : isSpaceChar c = false := by
  cases hsp : isSpaceChar c with
  | false => rfl
  | true =>
    exfalso
    simp only [isSpaceChar, Bool.or_eq_true, beq_iff_eq] at hsp
    rcases hsp with ((((h1 | h1) | h1) | h1) | h1) | h1 <;> subst h1 <;>
      exact absurd h (by decide)

lemma dropWhile_space_of_digits (l : List Char) (h : l.all isPyDigit = true) :
    l.dropWhile isSpaceChar = l := by
  cases l with
  | nil => rfl
  | cons c cs =>
    have hc : isPyDigit c = true := by
      simp only [List.all_cons, Bool.and_eq_true] at h
      exact h.1
    simp [List.dropWhile, digit_not_space c hc]

lemma pyTrim_of_digits (l : List Char) (h : l.all isPyDigit = true) : pyTrim l = l := by
  unfold pyTrim
  rw [dropWhile_space_of_digits l h]
  rw [dropWhile_space_of_digits l.reverse (by simpa using h)]
  exact List.reverse_reverse l

lemma pyIntL_of_digits (l : List Char) (hne : l ≠ []) (h : l.all isPyDigit = true) :
    pyIntL l = some ((digitsVal l : Nat) : Int) := by
  cases l with
  | nil => exact absurd rfl hne
  | cons c cs =>
    have hc : isPyDigit c = true := by
      simp only [List.all_cons, Bool.and_eq_true] at h
      exact h.1
    have hplus : c ≠ '+' := digit_ne c '+' hc (by decide)
    have hminus : c ≠ '-' := digit_ne c '-' hc (by decide)
    unfold pyIntL
    rw [pyTrim_of_digits _ h]
    simp [hplus, hminus, h, one_mul]

/-- The token is a plain base-10 numeral denoting `n` (the form every real
    clause part of a cron pattern has). -/
def DigitTok (l : List Char) (n : Int) : Prop :=
  l ≠ [] ∧ l.all isPyDigit = true ∧ (digitsVal l : Int) = n

instance (l : List Char) (n : Int) : Decidable (DigitTok l n) := by
  unfold DigitTok
  infer_instance

lemma DigitTok.pyIntL {l : List Char} {n : Int} (h : DigitTok l n) :
    Crython.pyIntL l = some n := by
  rw [pyIntL_of_digits l h.1 h.2.1, h.2.2]

lemma DigitTok.mem_digit {l : List Char} {n : Int} (h : DigitTok l n) :
    ∀ c ∈ l, isPyDigit c = true := by
  intro c hc
  exact List.all_eq_true.mp h.2.1 c hc

lemma DigitTok.ne_star {l : List Char} {n : Int} (h : DigitTok l n) : l ≠ ['*'] := by
  intro he
  have := h.mem_digit '*' (by rw [he]; exact List.mem_singleton_self '*')
  exact absurd this (by decide)

lemma digit_not_comma (c : Char) (h : isPyDigit c = true) : (c == ',') = false := by
  exact beq_eq_false_iff_ne.mpr (digit_ne c ',' h (by decide))

lemma digit_not_ds (c : Char) (h : isPyDigit c = true) :
    ((c == '-') || (c == '/')) = false := by
  rw [beq_eq_false_iff_ne.mpr (digit_ne c '-' h (by decide)),
      beq_eq_false_iff_ne.mpr (digit_ne c '/' h (by decide))]
  rfl

lemma splitDS_two (sa sb : List Char) (sep : Char)
    (hsep : ((sep == '-') || (sep == '/')) = true)
    (ha : ∀ c ∈ sa, isPyDigit c = true) (hb : ∀ c ∈ sb, isPyDigit c = true) :
    splitDS (sa ++ sep :: sb) = [sa, sb] := by
  unfold splitDS
  rw [splitChars_append_sep _ sa sb sep hsep (fun c hc => digit_not_ds c (ha c hc))]
  rw [splitChars_of_no_sep _ sb (fun c hc => digit_not_ds c (hb c hc))]

lemma splitDS_three (sa sb sst : List Char)
    (ha : ∀ c ∈ sa, isPyDigit c = true) (hb : ∀ c ∈ sb, isPyDigit c = true)
    (hst : ∀ c ∈ sst, isPyDigit c = true) :
    splitDS (sa ++ '-' :: (sb ++ '/' :: sst)) = [sa, sb, sst] := by
  unfold splitDS
  rw [splitChars_append_sep _ sa (sb ++ '/' :: sst) '-' (by decide)
    (fun c hc => digit_not_ds c (ha c hc))]
  rw [splitChars_append_sep _ sb sst '/' (by decide)
    (fun c hc => digit_not_ds c (hb c hc))]
  rw [splitChars_of_no_sep _ sst (fun c hc => digit_not_ds c (hst c hc))]

lemma splitComma_two_tok (sa sb : List Char) (sep : Char) (hsep : sep ≠ ',')
    (ha : ∀ c ∈ sa, isPyDigit c = true) (hb : ∀ c ∈ sb, isPyDigit c = true) :
    splitComma (sa ++ sep :: sb) = [sa ++ sep :: sb] := by
  apply splitChars_of_no_sep
  intro c hc
  rcases List.mem_append.mp hc with h1 | h1
  · exact digit_not_comma c (ha c h1)
  · rcases List.mem_cons.mp h1 with h2 | h2
    · subst h2
      exact beq_eq_false_iff_ne.mpr hsep
    · exact digit_not_comma c (hb c h2)

lemma splitComma_three_tok (sa sb sst : List Char)
    (ha : ∀ c ∈ sa, isPyDigit c = true) (hb : ∀ c ∈ sb, isPyDigit c = true)
    (hst : ∀ c ∈ sst, isPyDigit c = true) :
    splitComma (sa ++ '-' :: (sb ++ '/' :: sst)) = [sa ++ '-' :: (sb ++ '/' :: sst)] := by
  apply splitChars_of_no_sep
  intro c hc
  rcases List.mem_append.mp hc with h1 | h1
  · exact digit_not_comma c (ha c h1)
  · rcases List.mem_cons.mp h1 with h2 | h2
    · subst h2; decide
    · rcases List.mem_append.mp h2 with h3 | h3
      · exact digit_not_comma c (hb c h3)
      · rcases List.mem_cons.mp h3 with h4 | h4
        · subst h4; decide
        · exact digit_not_comma c (hst c h4)

lemma init_exact_eq (n mn mx : Int) (sp : List Char) :
    CronField.init (.exact n) mn mx sp =
      if mn ≤ n ∧ n ≤ mx then .ok ⟨.exact n, mn, mx, sp⟩
      else .error (.valueOutOfBounds mn mx) := rfl

lemma init_pattern_eq (s : String) (mn mx : Int) (sp : List Char) :
    CronField.init (.pattern s) mn mx sp =
      if SPECIALS.filter (fun c => decide (c ∉ sp ∧ c ∈ (subEnglishPhrases s).data)) ≠ [] then
        .error (.invalidSpecialChars
          (SPECIALS.filter (fun c => decide (c ∉ sp ∧ c ∈ (subEnglishPhrases s).data))))
      else .ok ⟨.pattern (subEnglishPhrases s), mn, mx, sp⟩ := rfl

lemma pyAll_eq_some_true (l : List (Option Bool)) :
    pyAll l = some true ↔ ∀ x ∈ l, x = some true := by
  induction l with
  | nil => simp [pyAll]
  | cons x rest ih =>
    match x with
    | none => simp [pyAll]
    | some false => simp [pyAll]
    | some true => simp [pyAll, ih]

end Crython

/-- C1: a three-part pattern clause `a-b/step` (with a positive step, the only
    case in which the modulus expression of the claim is defined) matches a
    candidate iff `min a b <= candidate <= max a b` and
    `(candidate + min a b) % step == 0` — the quirky lower-bound-added
    modulus, independent of the field's own bounds. -/
theorem c1_three_part_step_clause
    (fmin fmax : Int) (sa sb sst : List Char) (a b st item : Int)
    (ha : Crython.DigitTok sa a) (hb : Crython.DigitTok sb b)
    (hst : Crython.DigitTok sst st) (hpos : 1 ≤ st) :
    Crython.patternContainsL fmin fmax item (sa ++ '-' :: (sb ++ '/' :: sst))
      = some (decide (Min.min a b ≤ item ∧ item ≤ Max.max a b ∧
                      (item + Min.min a b) % st = 0)) := by
  have hsplit : Crython.splitDS (sa ++ '-' :: (sb ++ '/' :: sst)) = [sa, sb, sst] :=
    Crython.splitDS_three sa sb sst ha.mem_digit hb.mem_digit hst.mem_digit
  have hzero : ¬(st = 0) := by omega
  unfold Crython.patternContainsL
  rw [Crython.splitComma_three_tok sa sb sst ha.mem_digit hb.mem_digit hst.mem_digit]
  simp only [Crython.clausesEval, hsplit, ha.ne_star, if_false, ha.pyIntL, hb.pyIntL,
    hst.pyIntL, Crython.stepCond, Bool.false_or, decide_eq_false hzero]
  congr 1
  cases hA : decide (Min.min a b ≤ item ∧ item ≤ Max.max a b) <;>
    cases hB : decide ((item + Min.min a b) % st = 0) <;>
      simp_all

/-- C9: a two-part pattern clause `a/b` with a plain integer first part is
    split exactly like the range clause `a-b`, so it matches iff
    `min a b <= candidate <= max a b` — the part after the slash acts as a
    range endpoint, not as a step. -/
theorem c9_slash_clause_is_range_clause
    (fmin fmax : Int) (sa sb : List Char) (a b item : Int)
    (ha : Crython.DigitTok sa a) (hb : Crython.DigitTok sb b) :
    Crython.patternContainsL fmin fmax item (sa ++ '/' :: sb)
        = Crython.patternContainsL fmin fmax item (sa ++ '-' :: sb)
      ∧ Crython.patternContainsL fmin fmax item (sa ++ '/' :: sb)
        = some (decide (Min.min a b ≤ item ∧ item ≤ Max.max a b)) := by
  have heval : ∀ sep : Char, ((sep == '-') || (sep == '/')) = true → sep ≠ ',' →
      Crython.patternContainsL fmin fmax item (sa ++ sep :: sb)
        = some (decide (Min.min a b ≤ item ∧ item ≤ Max.max a b)) := by
    intro sep hsep hsep'
    have hsplit : Crython.splitDS (sa ++ sep :: sb) = [sa, sb] :=
      Crython.splitDS_two sa sb sep hsep ha.mem_digit hb.mem_digit
    unfold Crython.patternContainsL
    rw [Crython.splitComma_two_tok sa sb sep hsep' ha.mem_digit hb.mem_digit]
    simp only [Crython.clausesEval, hsplit, ha.ne_star, if_false, ha.pyIntL, hb.pyIntL,
      Bool.false_or]
  have h1 := heval '/' (by decide) (by decide)
  have h2 := heval '-' (by decide) (by decide)
  exact ⟨h1.trans h2.symm, h1⟩

/-- Closed instantiation of `c1_three_part_step_clause` at the clause `1-5/2`
    and candidate 3: in range and `(3 + 1) % 2 == 0`, so it matches. -/
theorem c1_three_part_step_clause_witness :
    Crython.patternContainsL 0 59 3 (['1'] ++ '-' :: (['5'] ++ '/' :: ['2'])) = some true :=
  (c1_three_part_step_clause 0 59 ['1'] ['5'] ['2'] 1 5 2 3
    (by decide) (by decide) (by decide) (by decide)).trans (by decide)

/-- Closed instantiation of `c9_slash_clause_is_range_clause` at the clause
    `10/2` and candidate 7: `7` lies in `[2, 10]`, so `10/2` matches it even
    though `7` is odd — the `2` is a range endpoint, not a step. -/
theorem c9_slash_clause_is_range_clause_witness :
    Crython.patternContainsL 0 59 7 (['1', '0'] ++ '/' :: ['2'])
        = Crython.patternContainsL 0 59 7 (['1', '0'] ++ '-' :: ['2'])
      ∧ Crython.patternContainsL 0 59 7 (['1', '0'] ++ '/' :: ['2']) = some true := by
  have h := c9_slash_clause_is_range_clause 0 59 ['1', '0'] ['2'] 10 2 7
    (by decide) (by decide)
  exact ⟨h.1, h.2.trans (by decide)⟩

/-- C3: matching an expression against a datetime succeeds exactly when every
    one of the seven field matchers accepts its calendar component — a
    logical AND across the seven fields; in particular an expression with an
    always-false field never matches any timestamp. -/
theorem c3_expression_matching_is_conjunction
    (e : Crython.CronExpression) (t : Crython.DateTime) :
    e.containsArg (.dt t) = some true ↔
      (e.second.contains t.second = some true ∧
       e.minute.contains t.minute = some true ∧
       e.hour.contains t.hour = some true ∧
       e.day.contains t.day = some true ∧
       e.month.contains t.month = some true ∧
       e.weekday.contains t.weekday = some true ∧
       e.year.contains t.year = some true) := by
  unfold Crython.CronExpression.containsArg
  rw [Crython.pyAll_eq_some_true]
  simp only [List.mem_cons, List.not_mem_nil, or_false, forall_eq_or_imp, forall_eq]
  tauto

/-- C5: an argument that is not a `datetime.datetime` makes
    `CronExpression.__contains__` return `False` without raising, whatever
    the expression and whatever the object is. -/
theorem c5_non_datetime_matches_false (e : Crython.CronExpression) (tag : Nat) :
    e.containsArg (.nonDatetime tag) = some false := rfl

/-- C8: construction-time validation does not make matching total: the
    day-of-week pattern `"L"` contains only allowed special characters, so
    `CronField.__init__` accepts it, yet `__contains__` then feeds `"L"` to
    `int()` and raises (modelled by `none`) instead of returning a boolean. -/
theorem c8_accepted_pattern_raises_at_match_time :
    Crython.dow (.pattern "L")
        = .ok ⟨.pattern "L", 0, 6, ['*', '/', '-', '?', 'L', '#']⟩
    ∧ (Crython.CronField.mk (.pattern "L") 0 6 ['*', '/', '-', '?', 'L', '#']).contains 3
        = none := by
  exact ⟨rfl, rfl⟩

/-- C4 counterexample: a field constructed from the iterable `[1, 1]` stores
    `sorted([1, 1]) = [1, 1]`, which is *not* a deduplicated sequence —
    `CronField.__init__` sorts an iterable value but never removes
    duplicates. -/
theorem c4_duplicates_survive_counterexample :
    Crython.sec (.iter [1, 1]) = .ok ⟨.iter [1, 1], 0, 59, ['*', '/', ',', '-']⟩
    ∧ ¬ ([1, 1] : List Int).Nodup := by
  exact ⟨rfl, by decide⟩

/-- C4 amended: a field constructed from an iterable of integers stores the
    ascending sort of the input with duplicates preserved (so it is
    deduplicated exactly when the input already was, e.g. for a Python set),
    and matching tests membership of that stored sequence, which coincides
    with membership of the input. -/
theorem c4_iter_sorted_and_membership
    (mn mx : Int) (sp : List Char) (xs : List Int) :
    Crython.CronField.init (.iter xs) mn mx sp
        = .ok ⟨.iter (List.insertionSort (· ≤ ·) xs), mn, mx, sp⟩
    ∧ List.Sorted (· ≤ ·) (List.insertionSort (· ≤ ·) xs)
    ∧ List.Perm (List.insertionSort (· ≤ ·) xs) xs
    ∧ ∀ item : Int,
        (Crython.CronField.mk (.iter (List.insertionSort (· ≤ ·) xs)) mn mx sp).contains item
          = some (decide (item ∈ xs)) := by
  refine ⟨rfl, List.sorted_insertionSort _ _, List.perm_insertionSort _ _, ?_⟩
  intro item
  unfold Crython.CronField.contains
  simp only
  congr 1
  exact decide_eq_decide.mpr (List.perm_insertionSort _ xs).mem_iff

/-- C6: construction rejects an exact integer outside the field's bounds with
    the bounds error, and rejects a pattern that — after phrase
    substitution — contains a special character not allowed for the field,
    with an error naming exactly the offending characters; in both cases the
    value is never clamped or dropped. -/
theorem c6_construction_validation
    (n mn mx : Int) (sp : List Char) (s : String) :
    ((n < mn ∨ mx < n) →
      Crython.CronField.init (.exact n) mn mx sp
        = .error (.valueOutOfBounds mn mx))
    ∧ ((∃ c, c ∈ Crython.SPECIALS ∧ c ∉ sp ∧ c ∈ (Crython.subEnglishPhrases s).data) →
        ∃ cs, Crython.CronField.init (.pattern s) mn mx sp
            = .error (.invalidSpecialChars cs)
          ∧ cs ≠ []
          ∧ ∀ c, c ∈ cs ↔
              (c ∈ Crython.SPECIALS ∧ c ∉ sp ∧ c ∈ (Crython.subEnglishPhrases s).data)) := by
  constructor
  · intro h
    have h' : ¬(mn ≤ n ∧ n ≤ mx) := by omega
    rw [Crython.init_exact_eq, if_neg h']
  · rintro ⟨c, hcS, hcsp, hcs⟩
    have hmem : c ∈ Crython.SPECIALS.filter
        (fun c => decide (c ∉ sp ∧ c ∈ (Crython.subEnglishPhrases s).data)) := by
      rw [List.mem_filter]
      exact ⟨hcS, by simp [hcsp, hcs]⟩
    have hne : Crython.SPECIALS.filter
        (fun c => decide (c ∉ sp ∧ c ∈ (Crython.subEnglishPhrases s).data)) ≠ [] :=
      List.ne_nil_of_mem hmem
    refine ⟨_, ?_, hne, ?_⟩
    · rw [Crython.init_pattern_eq, if_pos hne]
    · intro x
      rw [List.mem_filter]
      simp [and_assoc]

/-- Closed instantiation of `c6_construction_validation`: a second field
    value of 100 exceeds the bound 59 and errors, and the second-field
    pattern consisting of the single disallowed special `'%'` errors naming
    exactly that character. -/
theorem c6_construction_validation_witness :
    (Crython.CronField.init (.exact 100) 0 59 ['*', '/', ',', '-']
        = .error (.valueOutOfBounds 0 59))
    ∧ ∃ cs, Crython.CronField.init (.pattern "%") 0 59 ['*', '/', ',', '-']
          = .error (.invalidSpecialChars cs)
        ∧ cs ≠ []
        ∧ ∀ c, c ∈ cs ↔
            (c ∈ Crython.SPECIALS ∧ c ∉ ['*', '/', ',', '-']
              ∧ c ∈ (Crython.subEnglishPhrases "%").data) :=
  ⟨(c6_construction_validation 100 0 59 ['*', '/', ',', '-'] "%").1 (by omega),
   (c6_construction_validation 100 0 59 ['*', '/', ',', '-'] "%").2
     ⟨'%', by decide, by decide, by decide⟩⟩

/-- C7: phrase substitution is case-insensitive and treats the full day name
    and the three-letter abbreviation alike: the day-of-week fields built
    from `"mon"`, `"Mon"` and `"monday"` are all constructed successfully
    (each substituting to `"0"`) and accept exactly the same candidates.
    This relies on `"monday"` preceding `"mon"` in the `PHRASES_REGEX`
    alternation (see `PHRASES_ORDER`), so the full name is consumed whole
    rather than having only its `"mon"` prefix replaced. -/
theorem c7_phrase_substitution_dow_equivalent :
    ∃ f1 f2 f3 : Crython.CronField,
      Crython.dow (.pattern "mon") = .ok f1
      ∧ Crython.dow (.pattern "Mon") = .ok f2
      ∧ Crython.dow (.pattern "monday") = .ok f3
      ∧ ∀ item : Int,
          f1.contains item = f2.contains item
          ∧ f2.contains item = f3.contains item := by
  refine ⟨⟨.pattern "0", 0, 6, ['*', '/', '-', '?', 'L', '#']⟩,
          ⟨.pattern "0", 0, 6, ['*', '/', '-', '?', 'L', '#']⟩,
          ⟨.pattern "0", 0, 6, ['*', '/', '-', '?', 'L', '#']⟩,
          rfl, rfl, rfl, fun item => ⟨rfl, rfl⟩⟩

/-- C10: because a Python 2 `str` is a (virtual) `collections.Iterable`,
    `CronField.__str__` applies its abbreviated first-dots-last rendering to
    a pattern string of 5 or more characters, not just to long lists: such a
    field prints as `[` + first character + `...` + last character + `]`. -/
theorem c10_pattern_str_abbreviated (f : Crython.CronField) (s : String)
    (hv : f.value = .pattern s) (hlen : 5 ≤ s.length) :
    f.str = "[" ++ String.singleton (s.data.headD ' ') ++ "..."
      ++ String.singleton (s.data.getLastD ' ') ++ "]" := by
  unfold Crython.CronField.str
  rw [hv]
  simp [hlen]

/-- Closed instantiation of `c10_pattern_str_abbreviated`: the five-character
    pattern `1,2,3` renders as `[1...3]`, not as the pattern text. -/
theorem c10_pattern_str_abbreviated_witness :
    (Crython.CronField.mk (.pattern "1,2,3") 0 59 ['*', '/', ',', '-']).str = "[1...3]" :=
  (c10_pattern_str_abbreviated
    (Crython.CronField.mk (.pattern "1,2,3") 0 59 ['*', '/', ',', '-']) "1,2,3"
    rfl (by decide)).trans (by decide)

/-- C2 is refuted at the concrete Idle configuration: `stop()` does set the
    stop event, clear the has-jobs event, and is idempotent, but clearing
    `proc_event` *parks* the loop rather than unparking it — from the Idle
    state (loop blocked in `proc_event.wait()` with no jobs) every number of
    loop steps after `stop()` leaves the loop still blocked in `waiting`, so
    it never observes the stop signal and never terminates. -/
theorem c2_stop_leaves_idle_loop_parked_forever :
    (Crython.CronTab.stop ⟨[], false, false⟩).stopEvent = true
    ∧ (Crython.CronTab.stop ⟨[], false, false⟩).procEvent = false
    ∧ Crython.CronTab.stop (Crython.CronTab.stop ⟨[], false, false⟩)
        = Crython.CronTab.stop ⟨[], false, false⟩
    ∧ ∀ n : Nat,
        Crython.schedulerStep^[n] ⟨Crython.CronTab.stop ⟨[], false, false⟩, .waiting⟩
          = ⟨Crython.CronTab.stop ⟨[], false, false⟩, .waiting⟩
        ∧ (Crython.schedulerStep^[n]
            ⟨Crython.CronTab.stop ⟨[], false, false⟩, .waiting⟩).phase
          ≠ Crython.LoopPhase.terminated := by
  refine ⟨rfl, rfl, rfl, fun n => ?_⟩
  have hfix : Crython.schedulerStep ⟨Crython.CronTab.stop ⟨[], false, false⟩, .waiting⟩
      = ⟨Crython.CronTab.stop ⟨[], false, false⟩, .waiting⟩ := rfl
  have hit := Function.iterate_fixed hfix n
  exact ⟨hit, by rw [hit]; intro h; cases h⟩
